import Mathlib

/-!
# Verification of the matcha-bakery cart script (src/script.js)

Shallow embedding of the cart, persistence, price-parsing and modal
add-to-cart logic of `src/script.js`, together with proofs of the
specified properties.

Modelling conventions:
* JavaScript strings that may be `undefined` are modelled as `Option String`;
  the JS falsiness of the empty string is made explicit in the `jsOr*`
  helpers (`x || d` on a possibly-undefined string).
* Machine numbers are modelled as `ℚ` (quantities as `ℤ`); the script only
  manipulates small decimal amounts, so floating-point rounding and overflow
  to `Infinity` are outside the granularity of this model.
* The DOM is not modelled; handlers are embedded as pure functions of the
  data they read (card dataset, staged product JSON, selected size,
  storage content).
-/

/-- JS `a || b` where `a` is a possibly-undefined string and the result is
forced to a string default `b` (empty string is falsy). -/
def jsOrStr : Option String → String → String
  | none, d => d
  | some s, d => if s = "" then d else s

/-- JS `a || b` between two possibly-undefined strings (empty string falsy). -/
def jsOrOpt : Option String → Option String → Option String
  | none, b => b
  | some s, b => if s = "" then b else some s

/-- JS truthiness of a possibly-undefined string. -/
def truthyStr : Option String → Bool
  | none => false
  | some s => s ≠ ""

/-- JS `q || 0` on a number (0 is falsy, so this is the identity on `ℤ`). -/
def jsOrZero (q : ℤ) : ℤ := if q = 0 then 0 else q

/-! ## Price parser (`safeParsePrice`, script.js lines 33-42)

`safeParsePrice` strips every character that is not a digit, a period or a
minus sign (the regex `/[^0-9.-]+/g`) and applies JS `Number` to the
residue; a non-finite result, an exception or a falsy input yields 0. -/

/-- The character class kept by the regex replace `/[^0-9.-]+/g` → `''`. -/
def keptChar (c : Char) : Bool := c.isDigit || c = '.' || c = '-'

/-- `String(priceStr).replace(/[^0-9.-]+/g, '')`, as the character list of
the resulting string. -/
def stripNonNumeric (s : String) : List Char := s.data.filter keptChar

/-- Numeric value of a digit string, most significant first. -/
def digitsVal (cs : List Char) : ℕ := cs.foldl (fun a c => a * 10 + (c.toNat - 48)) 0

/-- Splits a character list at each `'.'` (like `"a.b".split('.')`). -/
def splitDots : List Char → List (List Char)
  | [] => [[]]
  | c :: rest =>
      let r := splitDots rest
      if c = '.' then [] :: r
      else
        match r with
        | [] => [[c]]
        | h :: t => (c :: h) :: t

/-- The exact decimal numeral a finite JS `Number` parse produces: a sign,
the integer-part digits' value, the fraction-part digits' value and the
number of fraction digits.  Kept symbolic (instead of an immediate `ℚ`) so
that concrete parses evaluate by `decide`; `JSNum.toRat` gives the value. -/
structure JSNum where
  neg : Bool
  ip : ℕ
  fp : ℕ
  flen : ℕ
deriving DecidableEq

/-- The rational value of a parsed decimal numeral. -/
def JSNum.toRat (x : JSNum) : ℚ :=
  (if x.neg then -1 else 1) * ((x.ip : ℚ) + (x.fp : ℚ) / (10 : ℚ) ^ x.flen)

/-- Body of a JS number without its sign, over the alphabet `{0-9, '.'}`:
digits with at most one decimal point and at least one digit; anything
else is NaN (`none`).  Returns (integer part, fraction part, fraction
length). -/
def jsNumBody (body : List Char) : Option (ℕ × ℕ × ℕ) :=
  if body.any (fun c => !(c.isDigit || c = '.')) then none
  else
    match splitDots body with
    | [ip] => if ip = [] then none else some (digitsVal ip, 0, 0)
    | [ip, fp] =>
        if ip = [] && fp = [] then none
        else some (digitsVal ip, digitsVal fp, fp.length)
    | _ => none

/-- JS `Number(t)` restricted to strings over the alphabet `{0-9, '.', '-'}`
(the only characters surviving `stripNonNumeric`): the empty string is 0,
then an optional single leading minus sign followed by a `jsNumBody`.
Exponents, hex forms, `Infinity` and whitespace cannot occur over this
alphabet, and a minus sign anywhere but the front makes the body invalid
(NaN, `none`). -/
def jsNumber : List Char → Option JSNum
  | [] => some ⟨false, 0, 0, 0⟩
  | '-' :: rest => (jsNumBody rest).map (fun b => ⟨true, b.1, b.2.1, b.2.2⟩)
  | cs => (jsNumBody cs).map (fun b => ⟨false, b.1, b.2.1, b.2.2⟩)

/-- `safeParsePrice` (script.js lines 33-42).  The input may be absent
(`undefined`); a falsy input (absent or empty string) returns 0, otherwise
the stripped residue is parsed and a NaN result degrades to 0. -/
def safeParsePrice (priceStr : Option String) : ℚ :=
  match priceStr with
  | none => 0
  | some s =>
      if s = "" then 0
      else
        match jsNumber (stripNonNumeric s) with
        | some n => n.toRat
        | none => 0

example : jsNumber (stripNonNumeric "$6.50") = some ⟨false, 6, 50, 2⟩ := by decide
example : jsNumber (stripNonNumeric "abc") = some ⟨false, 0, 0, 0⟩ := by decide
example : jsNumber (stripNonNumeric "-$5.00") = some ⟨true, 5, 0, 2⟩ := by decide
example : jsNumber (stripNonNumeric "1.2.3") = none := by decide
example : safeParsePrice (some "$6.50") = 13/2 := by
  have h : jsNumber (stripNonNumeric "$6.50") = some ⟨false, 6, 50, 2⟩ := by decide
  simp [safeParsePrice, h, JSNum.toRat]
  norm_num

/-! ## Cart store (script.js lines 29-30, 195-234)

The in-memory cart is a JS object mapping an item name to a line item;
property insertion order is observable, so it is embedded as an
insertion-ordered association list.  Carts built through the store
operations have unique keys (a JS object cannot hold a key twice). -/

/-- A cart line item (`{ name, price, img, qty }`, script.js line 29).
Within the script, `price` and `img` are always strings and `qty` a
number; `qty` is `ℤ` so that unvalidated quantities are representable. -/
structure Item where
  name : String
  price : String
  img : String
  qty : ℤ
deriving DecidableEq

/-- The in-memory cart object. -/
abbrev Cart := List (String × Item)

/-- The argument of `addItemToCart`: a product object whose fields may be
absent (`undefined`). -/
structure Product where
  name : Option String
  price : Option String
  img : Option String
deriving DecidableEq

/-- JS property read `cart[key]`. -/
def getItem (c : Cart) (key : String) : Option Item :=
  (c.find? (fun kv => kv.1 = key)).map Prod.snd

/-- JS property write `cart[key] = it` on a key already present: the entry
keeps its position.  (Carts built by the store operations hold each key at
most once.) -/
def setItem (c : Cart) (key : String) (it : Item) : Cart :=
  c.map (fun kv => if kv.1 = key then (key, it) else kv)

/-- JS `delete cart[key]`. -/
def eraseKey (c : Cart) (key : String) : Cart :=
  c.filter (fun kv => kv.1 ≠ key)

/-- `addItemToCart` (script.js lines 195-211): no-op on a falsy name;
increment `qty` on an existing key (`(existing.qty || 0) + 1`); otherwise
append a fresh item with `qty` 1, price defaulted to `"$0.00"` and image
defaulted to `""` (`product.price || '$0.00'`, `product.img || ''`). -/
def addItemToCart (c : Cart) (product : Product) : Cart :=
  if !truthyStr product.name then c
  else
    let key := product.name.getD ""
    match getItem c key with
    | some existing => setItem c key { existing with qty := jsOrZero existing.qty + 1 }
    | none =>
        c ++ [(key, { name := key, price := jsOrStr product.price "$0.00",
                      img := jsOrStr product.img "", qty := 1 })]

/-- `changeItemQty` (script.js lines 213-221): no-op on a falsy name or an
absent key; otherwise `qty := max(0, (qty || 0) + delta)` and the entry is
deleted when the new quantity is 0. -/
def changeItemQty (c : Cart) (name : String) (delta : ℤ) : Cart :=
  if name = "" then c
  else
    match getItem c name with
    | none => c
    | some it =>
        let q := max 0 (jsOrZero it.qty + delta)
        if q = 0 then eraseKey c name else setItem c name { it with qty := q }

/-- `removeItem` (script.js lines 223-228): no-op on a falsy name,
otherwise unconditional deletion. -/
def removeItem (c : Cart) (name : String) : Cart :=
  if name = "" then c else eraseKey c name

/-- `clearCart` (script.js lines 230-234). -/
def clearCart (_c : Cart) : Cart := []

/-- The badge count computed by `updateCartBadge` (script.js line 87):
`Object.values(cart).reduce((sum, it) => sum + (it.qty || 0), 0)`. -/
def cartBadgeTotal (c : Cart) : ℤ :=
  c.foldl (fun sum kv => sum + jsOrZero kv.2.qty) 0

/-- One user-level cart mutation, as dispatched by the cart-list click
handler (script.js lines 395-409). -/
inductive CartOp where
  | add (product : Product)
  | change (name : String) (delta : ℤ)
  | rem (name : String)
deriving DecidableEq

/-- Applies one cart operation. -/
def applyOp (c : Cart) : CartOp → Cart
  | .add p => addItemToCart c p
  | .change n d => changeItemQty c n d
  | .rem n => removeItem c n

/-- Runs a sequence of cart operations from the initially empty cart. -/
def runOps (ops : List CartOp) : Cart := ops.foldl applyOp []

/-! ## Product modal staging and add-to-cart flow (script.js lines 262-381) -/

/-- The data the card click handler reads from a product card: the
`data-*` attributes of `card.dataset` plus the DOM fallbacks it queries
(`.product-name` text, `.price-badge` text, the card image source).  Each
may be absent. -/
structure CardData where
  name : Option String
  pricenormal : Option String
  priceNormal : Option String
  priceMedium : Option String
  priceLarge : Option String
  priceVenti : Option String
  price : Option String
  desc : Option String
  img : Option String
  productNameText : Option String
  priceBadgeText : Option String
  imgSrc : Option String
deriving DecidableEq

/-- The staged pending-add product, i.e. the parse of the JSON stored in
`addToCartBtn.dataset.product`.  Every field the add-to-cart handler reads
from `p` is present here; `price` is `Option String` because the handler
reads `p.price` even when the staged JSON carries no such field. -/
structure Staged where
  name : String
  price : Option String
  normal : Option String
  medium : Option String
  large : Option String
  venti : Option String
  img : Option String
  desc : Option String
deriving DecidableEq

/-- The staging step of the card click handler (script.js lines 266-274
and 310-315): resolve each display field with its JS `||` defaults, then
store `JSON.stringify({ name, normal, medium, large, venti, img, desc })`
on the add-control.  The flat `price` read on line 272 is used for the
modal display only and is not part of the stringified object, so the
staged product's `price` field is absent (`JSON.parse` of the staged text
has no `price` property). -/
def stageProduct (cd : CardData) : Staged :=
  { name := jsOrStr (jsOrOpt cd.name cd.productNameText) "Unnamed"
    price := none
    normal := some (jsOrStr cd.pricenormal "$0.00")
    medium := some (jsOrStr cd.priceMedium "$0.00")
    large := some (jsOrStr cd.priceLarge "$0.00")
    venti := some (jsOrStr cd.priceVenti "$0.00")
    img := some (jsOrStr (jsOrOpt cd.img cd.imgSrc) "")
    desc := some (jsOrStr cd.desc "") }

/-- The `finalPrice` computation of the add-to-cart click handler
(script.js lines 346-360): the selected size picks its tier directly;
with no size selected the fallback chain is
`p.price || p.normal || p.medium || p.large || p.venti || "$0.00"`. -/
def determineFinalPrice (p : Staged) (selectedSize : Option String) : Option String :=
  if selectedSize = some "medium" then p.medium
  else if selectedSize = some "normal" then p.normal
  else if selectedSize = some "large" then p.large
  else if selectedSize = some "venti" then p.venti
  else
    some (jsOrStr (jsOrOpt p.price (jsOrOpt p.normal (jsOrOpt p.medium
      (jsOrOpt p.large p.venti)))) "$0.00")

/-- The final line-item name (script.js line 364):
`selectedSize ? `${p.name} (${selectedSize})` : p.name`. -/
def finalItemName (p : Staged) (selectedSize : Option String) : String :=
  match selectedSize with
  | some sz => if sz = "" then p.name else p.name ++ " (" ++ sz ++ ")"
  | none => p.name

/-- The add-to-cart click handler (script.js lines 335-371) with staged
product `p` and the checked size radio value `selectedSize`: build
`finalItem` and pass it to `addItemToCart`. -/
def addToCartFlow (c : Cart) (p : Staged) (selectedSize : Option String) : Cart :=
  addItemToCart c
    { name := some (finalItemName p selectedSize)
      price := determineFinalPrice p selectedSize
      img := p.img }

/-! ## Persistence (script.js lines 48-81)

Storage holds at most one raw string under `STORAGE_KEY`.  `JSON.parse`
of that string is abstracted as an inductive: the raw text is either
empty, unparsable (`JSON.parse` throws), or parses to a JS value `JVal`.
`JSON.stringify` on a cart always yields parsable text whose parse is
`encodeCart`, which is how `saveCart` is embedded. -/

/-- A parsed JSON value (the possible results of `JSON.parse`). -/
inductive JVal where
  | null : JVal
  | bool : Bool → JVal
  | num : ℚ → JVal
  | str : String → JVal
  | arr : List JVal → JVal
  | obj : List (String × JVal) → JVal

/-- JS truthiness of a parsed JSON value (`NaN` cannot result from
`JSON.parse`). -/
def jsTruthy : JVal → Bool
  | .null => false
  | .bool b => b
  | .num q => q ≠ 0
  | .str s => s ≠ ""
  | .arr _ => true
  | .obj _ => true

/-- JS `typeof v === 'object'` on a parsed JSON value (`null` and arrays
included). -/
def typeofIsObject : JVal → Bool
  | .null => true
  | .arr _ => true
  | .obj _ => true
  | _ => false

/-- What the raw string stored under `STORAGE_KEY` amounts to. -/
inductive RawContent where
  | emptyText : RawContent
  | unparsable : RawContent
  | parsed : JVal → RawContent

/-- The storage substrate: availability (the outcome of the
`isLocalStorageAvailable` probe, script.js lines 48-57) and the content
under `STORAGE_KEY` (`none` = key missing). -/
structure Storage where
  available : Bool
  content : Option RawContent

/-- The empty cart `{}` as a JSON value. -/
def emptyCartJ : JVal := .obj []

/-- `JSON.parse(JSON.stringify(·))` on a line item: the JSON object
serialization round-trips these plain string/number fields exactly. -/
def encodeItem (it : Item) : JVal :=
  .obj [("name", .str it.name), ("price", .str it.price),
        ("img", .str it.img), ("qty", .num (it.qty : ℚ))]

/-- `JSON.parse(JSON.stringify(·))` on a cart object. -/
def encodeCart (c : Cart) : JVal :=
  .obj (c.map (fun kv => (kv.1, encodeItem kv.2)))

/-- `saveCart` (script.js lines 60-68): a no-op when the probe fails,
otherwise the serialized cart replaces the stored content.  (The inner
`try/catch` only guards a write failure of the substrate itself, which the
model folds into availability.) -/
def saveCart (st : Storage) (c : Cart) : Storage :=
  if !st.available then st
  else { st with content := some (.parsed (encodeCart c)) }

/-- `loadCart` (script.js lines 70-81): `{}` when the probe fails, the key
is missing, the raw text is falsy or unparsable, or the parsed value is
not a truthy `typeof 'object'` value; otherwise the parsed value itself,
with no further validation. -/
def loadCart (st : Storage) : JVal :=
  if !st.available then emptyCartJ
  else
    match st.content with
    | none => emptyCartJ
    | some .emptyText => emptyCartJ
    | some .unparsable => emptyCartJ
    | some (.parsed v) => if jsTruthy v && typeofIsObject v then v else emptyCartJ

/-- Property lookup on a parsed JSON object. -/
def jLookup : JVal → String → Option JVal
  | .obj fs, k => (fs.find? (fun kv => kv.1 = k)).map Prod.snd
  | _, _ => none

/-- `Object.keys` of a parsed JSON object. -/
def jKeys : JVal → List String
  | .obj fs => fs.map Prod.fst
  | _ => []

/-- The cart store quantity invariant: every line item present has
quantity at least 1. -/
def qtyInv (c : Cart) : Prop := ∀ kv ∈ c, 1 ≤ kv.2.qty

/-! ## Lemmas about the cart store primitives -/

theorem jsOrZero_eq (q : ℤ) : jsOrZero q = q := by
  unfold jsOrZero; split <;> omega

theorem getItem_cons (kv : String × Item) (rest : Cart) (k : String) :
    getItem (kv :: rest) k = if kv.1 = k then some kv.2 else getItem rest k := by
  by_cases h : kv.1 = k <;> simp [getItem, List.find?_cons, h]

theorem getItem_mem {c : Cart} {k : String} {it : Item} (h : getItem c k = some it) :
    (k, it) ∈ c := by
  induction c with
  | nil => simp [getItem] at h
  | cons kv rest ih =>
      rw [getItem_cons] at h
      by_cases hk : kv.1 = k
      · rw [if_pos hk] at h
        cases kv with
        | mk k1 it1 => simp_all
      · rw [if_neg hk] at h
        exact List.mem_cons_of_mem _ (ih h)

theorem getItem_setItem_self {c : Cart} {k : String} {ex : Item}
    (h : getItem c k = some ex) (it : Item) :
    getItem (setItem c k it) k = some it := by
  induction c with
  | nil => simp [getItem] at h
  | cons kv rest ih =>
      by_cases hk : kv.1 = k
      · simp [setItem, getItem_cons, hk]
      · rw [getItem_cons, if_neg hk] at h
        simpa [setItem, getItem_cons, hk] using ih h

theorem setItem_cons (kv : String × Item) (rest : Cart) (k : String) (it : Item) :
    setItem (kv :: rest) k it
      = (if kv.1 = k then (k, it) else kv) :: setItem rest k it := rfl

theorem eraseKey_cons (kv : String × Item) (rest : Cart) (k : String) :
    eraseKey (kv :: rest) k
      = if kv.1 = k then eraseKey rest k else kv :: eraseKey rest k := by
  by_cases hk : kv.1 = k <;> simp [eraseKey, List.filter_cons, hk]

theorem getItem_setItem_ne (c : Cart) (k : String) (it : Item) {k2 : String}
    (h : k2 ≠ k) : getItem (setItem c k it) k2 = getItem c k2 := by
  induction c with
  | nil => rfl
  | cons kv rest ih =>
      rw [setItem_cons]
      by_cases hk : kv.1 = k
      · have h1 : k ≠ k2 := fun he => h he.symm
        have h2 : kv.1 ≠ k2 := fun he => h1 (hk.symm.trans he)
        rw [if_pos hk, getItem_cons, getItem_cons, if_neg h1, if_neg h2, ih]
      · rw [if_neg hk, getItem_cons, getItem_cons, ih]

theorem getItem_eraseKey_self (c : Cart) (k : String) :
    getItem (eraseKey c k) k = none := by
  induction c with
  | nil => rfl
  | cons kv rest ih =>
      rw [eraseKey_cons]
      by_cases hk : kv.1 = k
      · rw [if_pos hk]; exact ih
      · rw [if_neg hk, getItem_cons, if_neg hk]; exact ih

theorem getItem_eraseKey_ne (c : Cart) (k : String) {k2 : String} (h : k2 ≠ k) :
    getItem (eraseKey c k) k2 = getItem c k2 := by
  induction c with
  | nil => rfl
  | cons kv rest ih =>
      rw [eraseKey_cons]
      by_cases hk : kv.1 = k
      · have h2 : kv.1 ≠ k2 := fun he => h (he.symm.trans hk)
        rw [if_pos hk, getItem_cons, if_neg h2, ih]
      · rw [if_neg hk, getItem_cons, getItem_cons, ih]

theorem setItem_keys (c : Cart) (k : String) (it : Item) :
    (setItem c k it).map Prod.fst = c.map Prod.fst := by
  induction c with
  | nil => rfl
  | cons kv rest ih =>
      by_cases hk : kv.1 = k <;> simp [setItem, hk] <;> simpa [setItem] using ih

/-! ## The quantity invariant is preserved by every store operation -/

theorem qtyInv_addItemToCart {c : Cart} (h : qtyInv c) (p : Product) :
    qtyInv (addItemToCart c p) := by
  unfold addItemToCart
  cases ht : truthyStr p.name with
  | false => simpa using h
  | true =>
      simp only [ht, Bool.not_true, Bool.false_eq_true, if_false]
      cases hg : getItem c (p.name.getD "") with
      | some ex =>
          simp only []
          intro kv hkv
          rcases List.mem_map.1 hkv with ⟨kv0, hkv0, heq⟩
          by_cases hk : kv0.1 = p.name.getD ""
          · rw [if_pos hk] at heq
            have hex : 1 ≤ ex.qty := h _ (getItem_mem hg)
            rw [← heq]
            simp [jsOrZero_eq]
            omega
          · rw [if_neg hk] at heq
            exact heq ▸ h _ hkv0
      | none =>
          intro kv hkv
          rcases List.mem_append.1 hkv with hm | hm
          · exact h _ hm
          · simp at hm
            rw [hm]

theorem qtyInv_changeItemQty {c : Cart} (h : qtyInv c) (name : String) (delta : ℤ) :
    qtyInv (changeItemQty c name delta) := by
  unfold changeItemQty
  by_cases hn : name = ""
  · simpa [hn] using h
  · simp only [hn, if_false]
    cases hg : getItem c name with
    | none => exact h
    | some it =>
        simp only []
        by_cases hq : max 0 (jsOrZero it.qty + delta) = 0
        · simp only [hq, if_pos rfl]
          intro kv hkv
          exact h _ (List.mem_of_mem_filter hkv)
        · simp only [if_neg hq]
          intro kv hkv
          rcases List.mem_map.1 hkv with ⟨kv0, hkv0, heq⟩
          by_cases hk : kv0.1 = name
          · rw [if_pos hk] at heq
            rw [← heq]
            simp
            omega
          · rw [if_neg hk] at heq
            exact heq ▸ h _ hkv0

theorem qtyInv_removeItem {c : Cart} (h : qtyInv c) (name : String) :
    qtyInv (removeItem c name) := by
  unfold removeItem
  by_cases hn : name = ""
  · simpa [hn] using h
  · simp only [hn, if_false]
    intro kv hkv
    exact h _ (List.mem_of_mem_filter hkv)

theorem qtyInv_applyOp {c : Cart} (h : qtyInv c) (op : CartOp) :
    qtyInv (applyOp c op) := by
  cases op with
  | add p => exact qtyInv_addItemToCart h p
  | change n d => exact qtyInv_changeItemQty h n d
  | rem n => exact qtyInv_removeItem h n

theorem qtyInv_foldl (ops : List CartOp) : ∀ c : Cart, qtyInv c →
    qtyInv (ops.foldl applyOp c) := by
  induction ops with
  | nil => intro c h; simpa using h
  | cons op rest ih =>
      intro c h
      exact ih _ (qtyInv_applyOp h op)

theorem cartBadgeTotal_foldl (c : Cart) : ∀ a : ℤ,
    c.foldl (fun sum kv => sum + jsOrZero kv.2.qty) a
      = a + (c.map (fun kv => kv.2.qty)).sum := by
  induction c with
  | nil => intro a; simp
  | cons kv rest ih =>
      intro a
      rw [List.foldl_cons, ih, List.map_cons, List.sum_cons, jsOrZero_eq]
      ring

/-! ## Claim theorems: cart store -/

/-- C2: for every sequence of add / changeQuantity / remove operations
applied to the initially empty cart, every line item present has quantity
at least 1 (no entry has quantity ≤ 0), and the badge total equals the sum
of the per-item quantities. -/
theorem cart_ops_qty_invariant (ops : List CartOp) :
    (∀ kv ∈ runOps ops, 1 ≤ kv.2.qty) ∧
    cartBadgeTotal (runOps ops) = ((runOps ops).map (fun kv => kv.2.qty)).sum := by
  constructor
  · exact qtyInv_foldl ops [] (by intro kv hkv; simp at hkv)
  · unfold cartBadgeTotal
    rw [cartBadgeTotal_foldl]
    ring

theorem cart_ops_qty_invariant_witness :
    ("Latte", ({ name := "Latte", price := "$4.50", img := "", qty := 2 } : Item)) ∈
      runOps [.add { name := some "Latte", price := some "$4.50", img := none },
              .add { name := some "Latte", price := some "$9.99", img := some "x" }] ∧
    (1 : ℤ) ≤ ({ name := "Latte", price := "$4.50", img := "", qty := 2 } : Item).qty :=
  ⟨by decide,
   (cart_ops_qty_invariant
      [.add { name := some "Latte", price := some "$4.50", img := none },
       .add { name := some "Latte", price := some "$9.99", img := some "x" }]).1
      ("Latte", { name := "Latte", price := "$4.50", img := "", qty := 2 })
      (by decide)⟩

/-- C6: `addItemToCart` is a no-op on a product without a (truthy) name;
on an existing key it increments that item's quantity by 1; otherwise it
appends a fresh line item with quantity 1 whose price defaults to
`"$0.00"` and whose image defaults to `""` when the corresponding product
field is absent. -/
theorem addItemToCart_spec (c : Cart) (p : Product) :
    (truthyStr p.name = false → addItemToCart c p = c) ∧
    (∀ key, p.name = some key → key ≠ "" →
      (∀ ex, getItem c key = some ex →
        addItemToCart c p = setItem c key { ex with qty := ex.qty + 1 } ∧
        getItem (addItemToCart c p) key = some { ex with qty := ex.qty + 1 }) ∧
      (getItem c key = none →
        addItemToCart c p
          = c ++ [(key, { name := key, price := jsOrStr p.price "$0.00",
                          img := jsOrStr p.img "", qty := 1 })] ∧
        (p.price = none → jsOrStr p.price "$0.00" = "$0.00") ∧
        (p.img = none → jsOrStr p.img "" = ""))) := by
  constructor
  · intro ht
    unfold addItemToCart
    simp [ht]
  · intro key hname hkey
    have ht : truthyStr p.name = true := by simp [truthyStr, hname, hkey]
    have hget : p.name.getD "" = key := by simp [hname]
    constructor
    · intro ex hex
      have heq : addItemToCart c p
          = setItem c key { ex with qty := ex.qty + 1 } := by
        unfold addItemToCart
        simp only [ht, Bool.not_true, Bool.false_eq_true, if_false, hget, hex,
          jsOrZero_eq]
      exact ⟨heq, by rw [heq]; exact getItem_setItem_self hex _⟩
    · intro hnone
      refine ⟨?_, fun hp => by simp [hp, jsOrStr], fun hi => by simp [hi, jsOrStr]⟩
      unfold addItemToCart
      simp only [ht, Bool.not_true, Bool.false_eq_true, if_false, hget, hnone]

theorem addItemToCart_spec_witness :
    addItemToCart [] { name := some "Latte", price := none, img := none }
      = [("Latte", { name := "Latte", price := "$0.00", img := "", qty := 1 })] := by
  have h := ((addItemToCart_spec [] { name := some "Latte", price := none, img := none }).2
    "Latte" rfl (by decide)).2 (by decide)
  rw [h.1, h.2.1 rfl]
  rfl

/-- C7 counterexample: with a (hydration-shaped) cart holding the key
`""`, the name `""` is not absent from the cart, yet `changeItemQty` is a
no-op because of its falsy-name guard (`if (!name || !cart[name]) return`),
instead of setting the quantity to `max(0, 1 + 1) = 2` as the claim
states. -/
theorem changeItemQty_claim_counterexample :
    (getItem [("", { name := "", price := "$1.00", img := "", qty := 1 })] "").isSome
      = true ∧
    changeItemQty [("", { name := "", price := "$1.00", img := "", qty := 1 })] "" 1
      = [("", { name := "", price := "$1.00", img := "", qty := 1 })] ∧
    getItem (changeItemQty
        [("", { name := "", price := "$1.00", img := "", qty := 1 })] "" 1) ""
      = some { name := "", price := "$1.00", img := "", qty := 1 } ∧
    max (0 : ℤ) (1 + 1) = 2 := by
  refine ⟨by decide, by decide, by decide, by decide⟩

/-- C7 (amended): `changeItemQty name delta` is a no-op when the name is
the empty string or absent from the cart; otherwise it sets the item's
quantity to `max(0, quantity + delta)`, removing the entry entirely when
that is 0 — in particular, decreasing a quantity-1 item by 1 removes it. -/
theorem changeItemQty_spec (c : Cart) (name : String) (delta : ℤ) :
    ((name = "" ∨ getItem c name = none) → changeItemQty c name delta = c) ∧
    (name ≠ "" → ∀ it, getItem c name = some it →
      (max 0 (it.qty + delta) = 0 →
        changeItemQty c name delta = eraseKey c name ∧
        getItem (changeItemQty c name delta) name = none) ∧
      (max 0 (it.qty + delta) ≠ 0 →
        changeItemQty c name delta
          = setItem c name { it with qty := max 0 (it.qty + delta) } ∧
        getItem (changeItemQty c name delta) name
          = some { it with qty := max 0 (it.qty + delta) }) ∧
      (it.qty = 1 → delta = -1 →
        changeItemQty c name delta = eraseKey c name ∧
        getItem (changeItemQty c name delta) name = none)) := by
  constructor
  · rintro (hn | hg)
    · unfold changeItemQty
      simp [hn]
    · unfold changeItemQty
      by_cases hn : name = ""
      · simp [hn]
      · simp only [hn, if_false, hg]
  · intro hn it hit
    have hstep : changeItemQty c name delta
        = if max 0 (it.qty + delta) = 0 then eraseKey c name
          else setItem c name { it with qty := max 0 (it.qty + delta) } := by
      unfold changeItemQty
      simp only [hn, if_false, hit, jsOrZero_eq]
    refine ⟨?_, ?_, ?_⟩
    · intro hq
      rw [hstep, if_pos hq]
      exact ⟨rfl, getItem_eraseKey_self c name⟩
    · intro hq
      rw [hstep, if_neg hq]
      exact ⟨rfl, getItem_setItem_self hit _⟩
    · intro h1 hd
      have hq : max (0 : ℤ) (it.qty + delta) = 0 := by rw [h1, hd]; rfl
      rw [hstep, if_pos hq]
      exact ⟨rfl, getItem_eraseKey_self c name⟩

theorem changeItemQty_spec_witness :
    changeItemQty [("Latte", { name := "Latte", price := "$4.50", img := "", qty := 1 })]
        "Latte" (-1) = [] := by
  have h := (((changeItemQty_spec
      [("Latte", { name := "Latte", price := "$4.50", img := "", qty := 1 })]
      "Latte" (-1)).2 (by decide)
      { name := "Latte", price := "$4.50", img := "", qty := 1 } (by decide)).2.2
      rfl rfl).1
  rw [h]
  rfl

/-- C9: adding a product whose name is already a key of the cart changes
only that item's quantity — its stored name, price and image stay as they
were (the incoming product's price and image are ignored), every other
key maps to its previous item, and the key order is unchanged. -/
theorem addItemToCart_existing_frame (c : Cart) (p : Product) (key : String)
    (hname : p.name = some key) (hkey : key ≠ "") (ex : Item)
    (hex : getItem c key = some ex) :
    getItem (addItemToCart c p) key
      = some { name := ex.name, price := ex.price, img := ex.img, qty := ex.qty + 1 } ∧
    (∀ k2, k2 ≠ key → getItem (addItemToCart c p) k2 = getItem c k2) ∧
    (addItemToCart c p).map Prod.fst = c.map Prod.fst := by
  have ht : truthyStr p.name = true := by simp [truthyStr, hname, hkey]
  have hget : p.name.getD "" = key := by simp [hname]
  have hstep : addItemToCart c p
      = setItem c key { ex with qty := jsOrZero ex.qty + 1 } := by
    unfold addItemToCart
    simp only [ht, Bool.not_true, Bool.false_eq_true, if_false, hget, hex]
  rw [hstep, jsOrZero_eq]
  exact ⟨getItem_setItem_self hex _,
         fun k2 h2 => getItem_setItem_ne c key _ h2,
         setItem_keys c key _⟩

theorem addItemToCart_existing_frame_witness :
    getItem (addItemToCart
        [("Mocha", { name := "Mocha", price := "$5.00", img := "m.png", qty := 3 }),
         ("Tea", { name := "Tea", price := "$2.00", img := "t.png", qty := 1 })]
        { name := some "Mocha", price := some "$9.99", img := some "other.png" }) "Mocha"
      = some { name := "Mocha", price := "$5.00", img := "m.png", qty := 4 } ∧
    getItem (addItemToCart
        [("Mocha", { name := "Mocha", price := "$5.00", img := "m.png", qty := 3 }),
         ("Tea", { name := "Tea", price := "$2.00", img := "t.png", qty := 1 })]
        { name := some "Mocha", price := some "$9.99", img := some "other.png" }) "Tea"
      = some { name := "Tea", price := "$2.00", img := "t.png", qty := 1 } := by
  have h := addItemToCart_existing_frame
    [("Mocha", { name := "Mocha", price := "$5.00", img := "m.png", qty := 3 }),
     ("Tea", { name := "Tea", price := "$2.00", img := "t.png", qty := 1 })]
    { name := some "Mocha", price := some "$9.99", img := some "other.png" }
    "Mocha" rfl (by decide)
    { name := "Mocha", price := "$5.00", img := "m.png", qty := 3 } (by decide)
  exact ⟨h.1, (h.2.1 "Tea" (by decide)).trans (by decide)⟩

/-! ## Claim theorems: price parser -/

theorem jsNumber_no_minus {cs : List Char} (h : '-' ∉ cs) {x : JSNum}
    (hx : jsNumber cs = some x) : x.neg = false := by
  unfold jsNumber at hx
  split at hx
  · cases hx
    rfl
  · exact absurd (List.mem_cons_self _ _) h
  · rcases Option.map_eq_some'.1 hx with ⟨b, _, hb⟩
    rw [← hb]

theorem JSNum.toRat_nonneg {x : JSNum} (h : x.neg = false) : 0 ≤ x.toRat := by
  unfold JSNum.toRat
  rw [h]
  simp only [Bool.false_eq_true, if_false, one_mul]
  positivity

/-- C3 counterexample: the parser is not non-negative — a price string
carrying a minus sign parses to a negative amount. -/
theorem safeParsePrice_claim_counterexample : safeParsePrice (some "-$5.00") < 0 := by
  have h1 : safeParsePrice (some "-$5.00") = JSNum.toRat ⟨true, 5, 0, 2⟩ := rfl
  rw [h1]
  unfold JSNum.toRat
  norm_num

/-- C3 (amended): every input yields a (finite) numeric amount, which is
non-negative whenever the input contains no minus sign; a price string
with extraneous non-numeric characters yields the numeric value embedded
in its stripped residue (sign included); an absent or unparsable input
yields exactly 0. -/
theorem safeParsePrice_spec (p : Option String) :
    (p = none → safeParsePrice p = 0) ∧
    (∀ s, p = some s → jsNumber (stripNonNumeric s) = none → safeParsePrice p = 0) ∧
    (∀ s x, p = some s → s ≠ "" → jsNumber (stripNonNumeric s) = some x →
      safeParsePrice p = x.toRat) ∧
    (∀ s, p = some s → '-' ∉ s.data → 0 ≤ safeParsePrice p) := by
  refine ⟨?_, ?_, ?_, ?_⟩
  · rintro rfl; rfl
  · rintro s rfl hn
    unfold safeParsePrice
    by_cases hs : s = ""
    · simp [hs]
    · simp only [hs, if_false]
      rw [hn]
  · rintro s x rfl hs hx
    unfold safeParsePrice
    simp only [hs, if_false]
    rw [hx]
  · rintro s rfl hm
    unfold safeParsePrice
    by_cases hs : s = ""
    · simp [hs]
    · simp only [hs, if_false]
      cases hx : jsNumber (stripNonNumeric s) with
      | none => exact le_refl 0
      | some x =>
          have hnm : '-' ∉ stripNonNumeric s := fun hc => hm (List.mem_of_mem_filter hc)
          exact JSNum.toRat_nonneg (jsNumber_no_minus hnm hx)

theorem safeParsePrice_spec_witness :
    safeParsePrice (some "$6.50") = JSNum.toRat ⟨false, 6, 50, 2⟩ ∧
    0 ≤ safeParsePrice (some "6.50") :=
  ⟨(safeParsePrice_spec (some "$6.50")).2.2.1 "$6.50" ⟨false, 6, 50, 2⟩ rfl
      (by decide) (by decide),
   (safeParsePrice_spec (some "6.50")).2.2.2 "6.50" rfl (by decide)⟩

/-! ## Claim theorems: persistence -/

/-- C4: `loadCart` yields the empty cart — never an error (the embedding
is total) — when the storage substrate is unavailable, the storage key is
missing, the stored text is empty or unparsable, or the parsed content is
not an object (a null, boolean, number or string value). -/
theorem loadCart_degrades_to_empty (st : Storage) :
    (st.available = false → loadCart st = emptyCartJ) ∧
    (st.content = none → loadCart st = emptyCartJ) ∧
    (st.content = some .emptyText → loadCart st = emptyCartJ) ∧
    (st.content = some .unparsable → loadCart st = emptyCartJ) ∧
    (∀ v, st.content = some (.parsed v) → typeofIsObject v = false →
      loadCart st = emptyCartJ) ∧
    (st.content = some (.parsed .null) → loadCart st = emptyCartJ) := by
  cases hav : st.available with
  | false =>
      have h : loadCart st = emptyCartJ := by unfold loadCart; simp [hav]
      exact ⟨fun _ => h, fun _ => h, fun _ => h, fun _ => h, fun _ _ _ => h, fun _ => h⟩
  | true =>
      refine ⟨fun hc => absurd hc (by decide), ?_, ?_, ?_, ?_, ?_⟩ <;> unfold loadCart
      · intro hc; simp [hav, hc]
      · intro hc; simp [hav, hc]
      · intro hc; simp [hav, hc]
      · intro v hc hv; simp [hav, hc, hv]
      · intro hc; simp [hav, hc, jsTruthy]

theorem loadCart_degrades_to_empty_witness :
    loadCart { available := false, content := none } = emptyCartJ :=
  (loadCart_degrades_to_empty { available := false, content := none }).1 rfl

/-- C10: when storage is available and holds a parsable non-null object
value, `loadCart` returns that parsed value exactly, with no per-item
validation — entries with quantity 0, negative quantity or missing fields
are accepted as-is, so the quantity invariant is not re-established. -/
theorem loadCart_returns_parsed_object (st : Storage) (fs : List (String × JVal))
    (hav : st.available = true) (hc : st.content = some (.parsed (.obj fs))) :
    loadCart st = .obj fs := by
  unfold loadCart
  simp [hav, hc, jsTruthy, typeofIsObject]

theorem loadCart_returns_parsed_object_witness :
    loadCart { available := true,
               content := some (.parsed (.obj
                 [("Ghost", .obj [("name", .str "Ghost"), ("qty", .num (-3))])])) }
      = .obj [("Ghost", .obj [("name", .str "Ghost"), ("qty", .num (-3))])] :=
  loadCart_returns_parsed_object _ _ rfl rfl

theorem jLookup_encodeCart (c : Cart) (k : String) :
    jLookup (encodeCart c) k = (getItem c k).map encodeItem := by
  induction c with
  | nil => rfl
  | cons kv rest ih =>
      by_cases hk : kv.1 = k
      · simp [encodeCart, jLookup, List.find?_cons, hk, getItem_cons]
      · simp only [encodeCart, jLookup, List.map_cons, List.find?_cons, hk,
          decide_False, getItem_cons, if_neg hk] at ih ⊢
        exact ih

/-- C5: with storage available, saving a non-empty cart and loading it
again reproduces the serialized cart exactly — the same set of item keys
in the same order, and for each key the same name, price, image and
quantity (every stored item field round-trips through `encodeItem`). -/
theorem save_then_load_roundtrip (st : Storage) (c : Cart)
    (hav : st.available = true) (_hne : c ≠ []) :
    loadCart (saveCart st c) = encodeCart c ∧
    jKeys (loadCart (saveCart st c)) = c.map Prod.fst ∧
    ∀ k, jLookup (loadCart (saveCart st c)) k = (getItem c k).map encodeItem := by
  have hsave : saveCart st c = { st with content := some (.parsed (encodeCart c)) } := by
    unfold saveCart
    simp [hav]
  have hload : loadCart (saveCart st c) = encodeCart c := by
    rw [hsave]
    unfold loadCart
    simp [hav, encodeCart, jsTruthy, typeofIsObject]
  refine ⟨hload, ?_, fun k => by rw [hload, jLookup_encodeCart]⟩
  rw [hload]
  simp [jKeys, encodeCart]

theorem save_then_load_roundtrip_witness :
    loadCart (saveCart { available := true, content := none }
        [("Latte", { name := "Latte", price := "$4.50", img := "l.png", qty := 2 })])
      = encodeCart
        [("Latte", { name := "Latte", price := "$4.50", img := "l.png", qty := 2 })] :=
  (save_then_load_roundtrip { available := true, content := none }
    [("Latte", { name := "Latte", price := "$4.50", img := "l.png", qty := 2 })]
    rfl (by simp)).1

/-! ## Claim theorems: add-to-cart flow -/

theorem append_large_ne_empty (nm : String) : nm ++ " (large)" ≠ "" := by
  intro h
  have hlen := congrArg String.length h
  rw [String.length_append] at hlen
  rw [show (" (large)" : String).length = 8 from rfl,
      show ("" : String).length = 0 from rfl] at hlen
  omega

/-- C8: for a multi-size product staged with tier prices normal `$3.00`,
medium `$3.50`, large `$4.00`, venti `$4.50`, activating add-to-cart with
size `"large"` selected adds a line item named `<name> (large)` priced
`"$4.00"`. -/
theorem addToCartFlow_large_size (nm : String) (price img desc : Option String) :
    addToCartFlow []
      { name := nm, price := price, normal := some "$3.00", medium := some "$3.50",
        large := some "$4.00", venti := some "$4.50", img := img, desc := desc }
      (some "large")
      = [(nm ++ " (large)",
          { name := nm ++ " (large)", price := "$4.00", img := jsOrStr img "",
            qty := 1 })] := by
  have hfp : determineFinalPrice
      { name := nm, price := price, normal := some "$3.00", medium := some "$3.50",
        large := some "$4.00", venti := some "$4.50", img := img, desc := desc }
      (some "large") = some "$4.00" := rfl
  have hfn : finalItemName
      { name := nm, price := price, normal := some "$3.00", medium := some "$3.50",
        large := some "$4.00", venti := some "$4.50", img := img, desc := desc }
      (some "large") = nm ++ " (large)" := by
    unfold finalItemName
    simp only [if_neg (by decide : ¬("large" = ""))]
    rw [String.append_assoc, String.append_assoc,
        show (" (" ++ ("large" ++ ")") : String) = " (large)" from by decide]
  unfold addToCartFlow
  rw [hfp, hfn]
  unfold addItemToCart
  have ht : truthyStr (some (nm ++ " (large)")) = true := by
    simp [truthyStr, append_large_ne_empty nm]
  simp only [ht, Bool.not_true, Bool.false_eq_true, if_false, Option.getD_some]
  have hg : getItem [] (nm ++ " (large)") = none := rfl
  rw [hg]
  rfl

/-- C1 (code bug): the staged pending-add data does not include the flat
price — the card click handler reads `ds.price` but omits it from the
stringified `dataset.product` (script.js line 314) — so for a flat-price
product (no size-tier attributes) with no size selected, the add-to-cart
fallback `p.price || p.normal || ...` finds `p.price` undefined and the
item is priced with the staging-time default of the normal tier,
`"$0.00"`, instead of the flat price as the claim (and the dead
`p.price` check on line 359) intend. -/
theorem flat_price_not_staged :
    (stageProduct
        { name := some "Croissant", pricenormal := none, priceNormal := none,
          priceMedium := none, priceLarge := none, priceVenti := none,
          price := some "$5.00", desc := none, img := none,
          productNameText := none, priceBadgeText := some "$5.00",
          imgSrc := none }).price = none ∧
    addToCartFlow []
      (stageProduct
        { name := some "Croissant", pricenormal := none, priceNormal := none,
          priceMedium := none, priceLarge := none, priceVenti := none,
          price := some "$5.00", desc := none, img := none,
          productNameText := none, priceBadgeText := some "$5.00",
          imgSrc := none }) none
      = [("Croissant", { name := "Croissant", price := "$0.00", img := "", qty := 1 })] :=
  ⟨rfl, by decide⟩

theorem addToCartFlow_large_size_witness :
    addToCartFlow []
      { name := "Matcha", price := none, normal := some "$3.00", medium := some "$3.50",
        large := some "$4.00", venti := some "$4.50", img := none, desc := none }
      (some "large")
      = [("Matcha (large)",
          { name := "Matcha (large)", price := "$4.00", img := "", qty := 1 })] :=
  (addToCartFlow_large_size "Matcha" none none none).trans (by decide)
